/-
Verification of the Remember-Scroll-Position plugin (src/main.ts).

Shallow embedding notes:
- JavaScript numbers are modelled as `JSVal`: an exact rational (`num`), `nan`,
  or `null`.  The claims under study depend only on equality, zero tests and
  truthiness of scroll values, never on floating-point rounding, so an exact
  carrier is faithful for them.
- A JavaScript object used as a string-keyed record is modelled as an
  insertion-ordered association list.  A key may be present and bound to the
  value `undefined` (here: `Option.none`), which is how `db[k] = db[old]`
  behaves when `old` is absent; `db[k]` reads such a binding as `undefined`,
  and `JSON.stringify` omits it.
- `JSON.stringify` string comparison is modelled as equality of the emitted
  JSON syntax tree (`SerDb`): JavaScript number printing is deterministic and
  injective, and key order follows the object's insertion order, which the
  ordered list preserves.
- `async` interleaving: the restore sequence suspends at its two `delay`
  calls; host-visible quantities that it re-reads after a suspension point
  (the flashing marker, the active markdown view) are supplied by a
  `RestoreEnv` record, one field per sampling point, so they may differ from
  the values at entry exactly as they may in the event loop.
-/
import Mathlib

set_option autoImplicit false
set_option linter.unusedVariables false

namespace RememberScroll

/-- A JavaScript number-or-null value as it can appear in a `scroll` field:
an exact rational, `NaN`, or `null` (the JSON image of `NaN`). -/
inductive JSVal where
  | num (q : ℚ)
  | nan
  | null
deriving DecidableEq, Repr

/-- JavaScript truthiness of a `JSVal`: `0`, `NaN` and `null` are falsy. -/
def JSVal.truthy : JSVal → Bool
  | num q => decide (q ≠ 0)
  | nan => false
  | null => false

/-- Truthiness of an optional field value (`none` is `undefined`, falsy). -/
def truthyOpt : Option JSVal → Bool
  | none => false
  | some v => v.truthy

/-- JavaScript loose equality `==` restricted to the values a `scroll` field
can hold: `NaN` compares unequal to everything (itself included), `null` and
`undefined` are loosely equal to each other, numbers compare numerically. -/
def looseEq : Option JSVal → Option JSVal → Bool
  | some (.num a), some (.num b) => a == b
  | some .nan, _ => false
  | _, some .nan => false
  | some (.num _), _ => false
  | _, some (.num _) => false
  | _, _ => true

/-- JavaScript global `isNaN` applied to a `scroll` field: it coerces its
argument, so `undefined` is NaN-like but `null` coerces to `0` and is not. -/
def jsIsNaN : Option JSVal → Bool
  | none => true
  | some .nan => true
  | some .null => false
  | some (.num _) => false

/-- Source `interface EphemeralState { scroll?: number }` (src/main.ts:17-19);
`none` is an absent/`undefined` field. -/
structure EphemeralState where
  scroll : Option JSVal
deriving DecidableEq, Repr

/-- Truthiness of an optional string: `undefined` and `""` are falsy. -/
def strTruthy : Option String → Bool
  | none => false
  | some s => decide (s ≠ "")

/-- Source `isEphemeralStatesEquals` (src/main.ts:162-173), with the source's
truthiness guards kept as written: a falsy `scroll` (absent, `0`, `NaN`) on
both sides makes the states equal. -/
def isEphemeralStatesEquals (state1 state2 : EphemeralState) : Bool :=
  if truthyOpt state1.scroll && !(truthyOpt state2.scroll) then false
  else if !(truthyOpt state1.scroll) && truthyOpt state2.scroll then false
  else if truthyOpt state1.scroll && !(looseEq state1.scroll state2.scroll) then false
  else true

/-- The in-memory database `{ [file_path: string]: EphemeralState }` as an
insertion-ordered association list; a binding to `none` is a key present with
the value `undefined`. -/
abbrev Db := List (String × Option EphemeralState)

/-- Property read `db[k]`: `undefined` when the key is absent or bound to
`undefined`. -/
def jsGet : Db → String → Option EphemeralState
  | [], _ => none
  | e :: rest, k => if e.1 = k then e.2 else jsGet rest k

/-- Whether the object has an own property named `k`. -/
def hasKey (db : Db) (k : String) : Bool :=
  db.any (fun e => e.1 == k)

/-- Property write `db[k] = v`: updates the binding in place when the key
exists (keeping its position in insertion order), appends otherwise. -/
def jsSet (db : Db) (k : String) (v : Option EphemeralState) : Db :=
  if hasKey db k then db.map (fun e => if e.1 = k then (k, v) else e)
  else db ++ [(k, v)]

/-- Statement `delete db[k]`: removes the binding entirely. -/
def jsDelete (db : Db) (k : String) : Db :=
  db.filter (fun e => e.1 != k)

/-- Source `renameFile` (src/main.ts:130-135): `db[newName] = db[oldName]` followed
by `delete db[oldName]`. -/
def renameFile (db : Db) (newName oldName : String) : Db :=
  jsDelete (jsSet db newName (jsGet db oldName)) oldName

/-- Source `deleteFile` (src/main.ts:138-141): `delete db[fileName]`. -/
def deleteFile (db : Db) (fileName : String) : Db :=
  jsDelete db fileName

/-- A JSON value appearing as a field of a serialized state: a number literal
or `null` (what `JSON.stringify` emits for `NaN`). -/
inductive JsonVal where
  | jnum (q : ℚ)
  | jnull
deriving DecidableEq, Repr

/-- How `JSON.stringify` renders a `scroll` value: `NaN` has no JSON form and
is emitted as `null`. -/
def serializeVal : JSVal → JsonVal
  | .num q => .jnum q
  | .nan => .jnull
  | .null => .jnull

/-- The JSON object emitted for one `EphemeralState`: a field list, empty when
`scroll` is `undefined` (stringify omits undefined-valued fields). -/
def serializeState (s : EphemeralState) : List (String × JsonVal) :=
  match s.scroll with
  | none => []
  | some v => [("scroll", serializeVal v)]

/-- The JSON syntax tree `JSON.stringify(db)` produces: entries in insertion
order, with `undefined`-valued keys omitted. -/
abbrev SerDb := List (String × List (String × JsonVal))

/-- Function `JSON.stringify` on the whole database. -/
def serializeDb : Db → SerDb
  | [] => []
  | e :: rest =>
      match e.2 with
      | none => serializeDb rest
      | some st => (e.1, serializeState st) :: serializeDb rest

/-- Function `JSON.parse` of a serialized scroll value. -/
def parseVal : JsonVal → JSVal
  | .jnum q => .num q
  | .jnull => .null

/-- Function `JSON.parse` of one serialized state object. -/
def parseState (fields : List (String × JsonVal)) : EphemeralState :=
  { scroll := (fields.lookup "scroll").map parseVal }

/-- Function `JSON.parse` of a serialized database: every parsed key is bound to a
defined state object. -/
def parseDb : SerDb → Db
  | [] => []
  | e :: rest => (e.1, some (parseState e.2)) :: parseDb rest

/-- Source `writeDb` (src/main.ts:243-256).  The dirty check compares
`JSON.stringify(this.db)` with `JSON.stringify(this.lastSavedDb)` (modelled as
`SerDb` equality); on a difference it issues `adapter.write` and replaces
`lastSavedDb` with `JSON.parse(JSON.stringify(db))`.  The `adapter.write`
promise is not awaited anywhere in the source, so its outcome — the
`writeOk` parameter — is never consulted: the replacement of `lastSavedDb`
happens whether or not the write eventually fails.  `wrote` records whether a
write was issued. -/
structure FlushResult where
  wrote : Bool
  lastSavedDb : Db
deriving Repr

def writeDb (writeOk : Bool) (db lastSavedDb : Db) : FlushResult :=
  if serializeDb db ≠ serializeDb lastSavedDb then
    { wrote := true, lastSavedDb := parseDb (serializeDb db) }
  else
    { wrote := false, lastSavedDb := lastSavedDb }

/-- Outcome of reading the durable file: absent, readable with some JSON
content, unreadable (adapter error), or readable but not valid JSON. -/
inductive ReadOutcome where
  | absent
  | ok (content : SerDb)
  | readError
  | malformed
deriving DecidableEq

/-- Source `readDb` (src/main.ts:232-241): an absent file yields the empty object;
a read error or malformed JSON makes `adapter.read`/`JSON.parse` throw, which
propagates to the caller (`Except.error`). -/
def readDb : ReadOutcome → Except Unit Db
  | .absent => .ok []
  | .ok content => .ok (parseDb content)
  | .readError => .error ()
  | .malformed => .error ()

/-- The database initialisation inside `onload` (src/main.ts:35-44): two
sequential `readDb` calls inside `try`, with the `catch` falling back to a
pair of empty objects.  Both reads see the same file, hence one outcome. -/
def onloadInitDb (r : ReadOutcome) : Db × Db :=
  match readDb r, readDb r with
  | .ok d1, .ok d2 => (d1, d2)
  | _, _ => ([], [])

/-- Database states reachable through the program's own cache operations:
the empty object from startup fallback, the parse of a read file, and the
three mutators `saveEphemeralState` (which always stores a defined state
object), `renameFile` and `deleteFile`. -/
inductive ReachableDb : Db → Prop where
  | init : ReachableDb []
  | fromRead (content : SerDb) : ReachableDb (parseDb content)
  | save (db : Db) (f : String) (st : EphemeralState) :
      ReachableDb db → ReachableDb (jsSet db f (some st))
  | rename (db : Db) (newName oldName : String) :
      ReachableDb db → ReachableDb (renameFile db newName oldName)
  | del (db : Db) (f : String) :
      ReachableDb db → ReachableDb (deleteFile db f)

/-- A database whose bindings are all defined states with non-`NaN` scroll
fields.  Every binding the program itself writes satisfies this except the
`undefined` one `renameFile` creates for an absent old key. -/
def wellFormedDb (db : Db) : Bool :=
  db.all (fun e =>
    match e.2 with
    | none => false
    | some st => st.scroll != some JSVal.nan)

/-- The plugin's mutable fields that the claims touch (src/main.ts:24-30).
`lastEphemeralState` is `none` while still `undefined`; note that an empty
object `{}` is a *defined* (and truthy) value, `some ⟨none⟩`. -/
structure PluginState where
  db : Db
  lastSavedDb : Db
  lastEphemeralState : Option EphemeralState
  lastLoadedFileName : Option String
  loadedLeafIdList : List String
  loadingFile : Bool
deriving Repr

/-- Source `saveEphemeralState` (src/main.ts:176-181): re-reads the active file and
stores the state only when it is truthy and equals `lastLoadedFileName`. -/
def saveEphemeralState (s : PluginState) (activeFile : Option String)
    (st : EphemeralState) : PluginState :=
  match activeFile with
  | some f =>
      if f ≠ "" ∧ some f = s.lastLoadedFileName then
        { s with db := jsSet s.db f (some st) }
      else s
  | none => s

/-- Source `checkEphemeralStateChanged` (src/main.ts:144-160).  `activeFile` is
`getActiveFile()?.path`, `st` the freshly sampled state.  The function
no-ops unless an active file exists, equals a set `lastLoadedFileName`, and
no restore is in flight; it adopts the sample as baseline when none exists;
it saves only when the sample is not `NaN` and differs from the baseline
under `isEphemeralStatesEquals`. -/
def checkEphemeralStateChanged (s : PluginState) (activeFile : Option String)
    (st : EphemeralState) : PluginState :=
  if !(strTruthy activeFile) || !(strTruthy s.lastLoadedFileName)
      || activeFile ≠ s.lastLoadedFileName || s.loadingFile then s
  else
    let s1 := if s.lastEphemeralState.isNone
              then { s with lastEphemeralState := some st } else s
    match s1.lastEphemeralState with
    | none => s1
    | some base =>
        if !(jsIsNaN st.scroll) && !(isEphemeralStatesEquals st base) then
          let s2 := saveEphemeralState s1 activeFile st
          { s2 with lastEphemeralState := some st }
        else s1

/-- Source `setEphemeralState` (src/main.ts:266-271): `view` is the document shown
by the active markdown view (`none` when there is no such view); the state is
applied — returned as an event `(document, state)` — only when a view exists
and `state.scroll` is truthy.  `none` means nothing was applied. -/
def setEphemeralState (view : Option String) (state : EphemeralState) :
    Option (String × EphemeralState) :=
  match view with
  | some doc => if truthyOpt state.scroll then some (doc, state) else none
  | none => none

/-- The host-supplied quantities one run of `restoreEphemeralState` reads,
one field per sampling point.  `flashing` is sampled after the
`delayAfterFileOpening` suspension and `viewAtApply` after the further 10 ms
suspension, so both may differ from what held at entry — the event loop can
run other handlers while the restore is suspended. -/
structure RestoreEnv where
  activeFile : Option String
  recentLeafId : Option String
  newLeafIdList : List String
  flashing : Bool
  viewAtApply : Option String
deriving Repr

/-- Result of one run of the restore sequence: the plugin state it leaves
behind and the application event (if any) it performed. -/
structure RestoreResult where
  state : PluginState
  applied : Option (String × EphemeralState)
deriving Repr

/-- Source `restoreEphemeralState` (src/main.ts:184-230), one complete run.  The
body after the two guards sets `loadingFile`, and for a genuinely new file
looks up `db[fileName]`; when a defined state is found it waits, re-checks
only the flashing marker, waits again, and applies the state to whatever
markdown view is then active (`env.viewAtApply`).  The transient
`lastEphemeralState = {}` assignment is overwritten by `st` before the run
ends and is therefore not tracked separately. -/
def restoreEphemeralState (s : PluginState) (env : RestoreEnv) : RestoreResult :=
  let fileName := env.activeFile
  if strTruthy fileName && s.loadingFile
      && decide (s.lastLoadedFileName = fileName) then
    ⟨s, none⟩
  else if (match env.recentLeafId with
           | some lid => s.loadedLeafIdList.contains lid
           | none => false) then
    ⟨s, none⟩
  else
    let s0 := { s with loadedLeafIdList := env.newLeafIdList,
                       loadingFile := true }
    if s0.lastLoadedFileName ≠ fileName then
      let s1 := { s0 with lastEphemeralState := some ⟨none⟩,
                          lastLoadedFileName := fileName }
      let st : Option EphemeralState :=
        match fileName with
        | some f => jsGet s1.db f
        | none => none
      match st with
      | some stv =>
          if !env.flashing then
            ⟨{ s1 with lastEphemeralState := st, loadingFile := false },
             setEphemeralState env.viewAtApply stv⟩
          else
            ⟨{ s1 with lastEphemeralState := st, loadingFile := false }, none⟩
      | none =>
          ⟨{ s1 with lastEphemeralState := st, loadingFile := false }, none⟩
    else
      ⟨{ s0 with loadingFile := false }, none⟩

/-- A plugin state about to restore the saved position of `notes/a`. -/
def sampleRestoreState : PluginState :=
  { db := [("notes/a", some ⟨some (JSVal.num 5)⟩)], lastSavedDb := [],
    lastEphemeralState := none, lastLoadedFileName := none,
    loadedLeafIdList := [], loadingFile := false }

/-- A restore run during which the user navigates away: the file-open event
was for `notes/a`, but by the time the post-delay application runs the active
markdown view shows `notes/b`. -/
def sampleRestoreEnv : RestoreEnv :=
  { activeFile := some "notes/a", recentLeafId := none, newLeafIdList := [],
    flashing := false, viewAtApply := some "notes/b" }

/-! ### Lemmas about the JS-object operations -/

theorem jsGet_cons (e : String × Option EphemeralState) (db : Db) (k : String) :
    jsGet (e :: db) k = if e.1 = k then e.2 else jsGet db k := rfl

theorem hasKey_cons (e : String × Option EphemeralState) (db : Db) (k : String) :
    hasKey (e :: db) k = ((e.1 == k) || hasKey db k) := by
  simp [hasKey]

theorem jsDelete_cons (e : String × Option EphemeralState) (db : Db) (k : String) :
    jsDelete (e :: db) k =
      if e.1 = k then jsDelete db k else e :: jsDelete db k := by
  by_cases he : e.1 = k
  · simp [jsDelete, List.filter_cons, he]
  · simp [jsDelete, List.filter_cons, he]

theorem jsGet_map_set (db : Db) (k : String) (v : Option EphemeralState)
    (h : hasKey db k = true) :
    jsGet (db.map (fun e => if e.1 = k then (k, v) else e)) k = v := by
  induction db with
  | nil => simp [hasKey] at h
  | cons e rest ih =>
    rw [hasKey_cons] at h
    by_cases he : e.1 = k
    · simp [List.map_cons, if_pos he, jsGet_cons]
    · have hb : (e.1 == k) = false := by simpa using he
      rw [hb] at h
      simp only [Bool.false_or] at h
      simp only [List.map_cons, if_neg he, jsGet_cons, if_neg he]
      exact ih h

theorem jsGet_map_set_ne (db : Db) (k k' : String) (v : Option EphemeralState)
    (hne : k' ≠ k) :
    jsGet (db.map (fun e => if e.1 = k then (k, v) else e)) k' = jsGet db k' := by
  induction db with
  | nil => rfl
  | cons e rest ih =>
    by_cases he : e.1 = k
    · have h2 : ¬ (k = k') := fun hc => hne hc.symm
      have h3 : ¬ (e.1 = k') := by
        rw [he]; exact h2
      simp only [List.map_cons, if_pos he, jsGet_cons, if_neg h2, if_neg h3]
      exact ih
    · simp only [List.map_cons, if_neg he, jsGet_cons]
      by_cases he' : e.1 = k'
      · rw [if_pos he', if_pos he']
      · rw [if_neg he', if_neg he']
        exact ih

theorem jsGet_append_single (db : Db) (k : String) (v : Option EphemeralState)
    (h : hasKey db k = false) : jsGet (db ++ [(k, v)]) k = v := by
  induction db with
  | nil => simp [jsGet]
  | cons e rest ih =>
    rw [hasKey_cons, Bool.or_eq_false_iff] at h
    have he : ¬ (e.1 = k) := by simpa using h.1
    rw [List.cons_append, jsGet_cons, if_neg he]
    exact ih h.2

theorem jsGet_append_single_ne (db : Db) (k k' : String)
    (v : Option EphemeralState) (hne : k' ≠ k) :
    jsGet (db ++ [(k, v)]) k' = jsGet db k' := by
  induction db with
  | nil =>
    have : ¬ (k = k') := fun hc => hne hc.symm
    simp [jsGet, this]
  | cons e rest ih =>
    rw [List.cons_append, jsGet_cons, jsGet_cons]
    by_cases he' : e.1 = k'
    · rw [if_pos he', if_pos he']
    · rw [if_neg he', if_neg he']
      exact ih

theorem jsGet_jsSet_self (db : Db) (k : String) (v : Option EphemeralState) :
    jsGet (jsSet db k v) k = v := by
  unfold jsSet
  by_cases h : hasKey db k = true
  · rw [if_pos h]
    exact jsGet_map_set db k v h
  · rw [if_neg h]
    exact jsGet_append_single db k v (by simpa using h)

theorem jsGet_jsSet_ne (db : Db) (k k' : String) (v : Option EphemeralState)
    (hne : k' ≠ k) : jsGet (jsSet db k v) k' = jsGet db k' := by
  unfold jsSet
  by_cases h : hasKey db k = true
  · rw [if_pos h]
    exact jsGet_map_set_ne db k k' v hne
  · rw [if_neg h]
    exact jsGet_append_single_ne db k k' v hne

theorem jsGet_jsDelete_self (db : Db) (k : String) :
    jsGet (jsDelete db k) k = none := by
  induction db with
  | nil => rfl
  | cons e rest ih =>
    rw [jsDelete_cons]
    by_cases he : e.1 = k
    · rw [if_pos he]
      exact ih
    · rw [if_neg he, jsGet_cons, if_neg he]
      exact ih

theorem jsGet_jsDelete_ne (db : Db) (k k' : String) (hne : k' ≠ k) :
    jsGet (jsDelete db k) k' = jsGet db k' := by
  induction db with
  | nil => rfl
  | cons e rest ih =>
    rw [jsDelete_cons, jsGet_cons]
    by_cases he : e.1 = k
    · have he' : ¬ (e.1 = k') := by
        rw [he]; exact fun hc => hne hc.symm
      rw [if_pos he, if_neg he']
      exact ih
    · rw [if_neg he, jsGet_cons]
      by_cases he' : e.1 = k'
      · rw [if_pos he', if_pos he']
      · rw [if_neg he', if_neg he']
        exact ih

theorem jsDelete_no_key (db : Db) (k : String) :
    ∀ e ∈ jsDelete db k, e.1 ≠ k := by
  intro e he
  have := List.of_mem_filter he
  simpa using this

/-! ### Lemmas about serialization -/

theorem serializeVal_parseVal (v : JSVal) :
    serializeVal (parseVal (serializeVal v)) = serializeVal v := by
  cases v <;> rfl

theorem serializeState_parseState (st : EphemeralState) :
    serializeState (parseState (serializeState st)) = serializeState st := by
  rcases st with ⟨sc⟩
  cases sc with
  | none => rfl
  | some v => cases v <;> rfl

theorem serializeDb_parseDb_serializeDb (db : Db) :
    serializeDb (parseDb (serializeDb db)) = serializeDb db := by
  induction db with
  | nil => rfl
  | cons e rest ih =>
    cases h : e.2 with
    | none => simp [serializeDb, h, ih]
    | some st =>
      simp [serializeDb, parseDb, h, serializeState_parseState, ih]

theorem parseState_serializeState (st : EphemeralState)
    (h : st.scroll ≠ some JSVal.nan) :
    parseState (serializeState st) = st := by
  rcases st with ⟨sc⟩
  cases sc with
  | none => rfl
  | some v =>
    cases v with
    | num q => rfl
    | nan => exact absurd rfl h
    | null => rfl

theorem parseDb_serializeDb_of_wellFormed (db : Db)
    (h : wellFormedDb db = true) : parseDb (serializeDb db) = db := by
  induction db with
  | nil => rfl
  | cons e rest ih =>
    have hdef : wellFormedDb rest = true ∧
        (match e.2 with
         | none => False
         | some st => st.scroll ≠ some JSVal.nan) := by
      simp [wellFormedDb] at h ⊢
      constructor
      · intro a b hab
        exact (h.2 a b hab)
      · rcases h with ⟨h1, _⟩
        cases he : e.2 with
        | none => rw [he] at h1; simp at h1
        | some st => rw [he] at h1; simpa using h1
    cases he : e.2 with
    | none => rw [he] at hdef; exact absurd hdef.2 (by simp)
    | some st =>
      rw [he] at hdef
      have : parseState (serializeState st) = st :=
        parseState_serializeState st hdef.2
      calc parseDb (serializeDb ((e.1, e.2) :: rest))
          = parseDb (serializeDb ((e.1, some st) :: rest)) := by rw [he]
        _ = (e.1, some st) :: parseDb (serializeDb rest) := by
              simp [serializeDb, parseDb, this]
        _ = (e.1, e.2) :: rest := by rw [ih hdef.1, ← he]

-- Sanity checks on the JS-object model.
example : jsGet (jsSet [] "a" (some ⟨some (JSVal.num 5)⟩)) "a"
    = some ⟨some (JSVal.num 5)⟩ := by decide
example : renameFile [] "b" "a" = [("b", none)] := by decide
example : renameFile [("a", some ⟨some (JSVal.num 1)⟩)] "a" "a" = [] := by decide
example : isEphemeralStatesEquals ⟨some (JSVal.num 0)⟩ ⟨none⟩ = true := by decide

/-! ### Further lemmas about the equality check -/

theorem isEphemeralStatesEquals_eq (s1 s2 : EphemeralState) :
    isEphemeralStatesEquals s1 s2 =
      ((truthyOpt s1.scroll && truthyOpt s2.scroll && looseEq s1.scroll s2.scroll)
       || (!(truthyOpt s1.scroll) && !(truthyOpt s2.scroll))) := by
  cases h1 : truthyOpt s1.scroll <;> cases h2 : truthyOpt s2.scroll <;>
    simp [isEphemeralStatesEquals, h1, h2]

theorem looseEq_iff_of_truthy (a b : Option JSVal)
    (ha : truthyOpt a = true) (hb : truthyOpt b = true) :
    (looseEq a b = true ↔ a = b) := by
  cases a with
  | none => simp [truthyOpt] at ha
  | some va =>
    cases b with
    | none => simp [truthyOpt] at hb
    | some vb =>
      cases va with
      | num qa =>
        cases vb with
        | num qb => simp [looseEq]
        | nan => simp [truthyOpt, JSVal.truthy] at hb
        | null => simp [truthyOpt, JSVal.truthy] at hb
      | nan => simp [truthyOpt, JSVal.truthy] at ha
      | null => simp [truthyOpt, JSVal.truthy] at ha

/-! ### Claim theorems -/

/-- Claim C1, counterexample: the claim asserts that a state with
`scroll = 0` is unequal to a state with `scroll` undefined, but
`isEphemeralStatesEquals` treats `0` as falsy and reports the two states as
equal, so the claimed iff fails at `({scroll: 0}, {})`. -/
theorem c1_counterexample :
    isEphemeralStatesEquals ⟨some (JSVal.num 0)⟩ ⟨none⟩ = true ∧
    ¬((∃ v, (⟨some (JSVal.num 0)⟩ : EphemeralState).scroll = some v ∧
            (⟨none⟩ : EphemeralState).scroll = some v) ∨
      ((⟨some (JSVal.num 0)⟩ : EphemeralState).scroll = none ∧
       (⟨none⟩ : EphemeralState).scroll = none)) := by
  refine ⟨by decide, ?_⟩
  rintro (⟨v, _, hv⟩ | ⟨h0, _⟩)
  · exact Option.noConfusion hv
  · exact Option.noConfusion h0

/-- Claim C1, amended: `isEphemeralStatesEquals s1 s2` returns true iff
either both scroll values are truthy (defined, non-zero, non-`NaN`) and
identical, or both are falsy (`undefined`, `null`, `NaN`, or the number `0`);
in particular a state with `scroll = 0` is treated as equal to a state with
`scroll` undefined. -/
theorem c1_amended (s1 s2 : EphemeralState) :
    isEphemeralStatesEquals s1 s2 = true ↔
      ((truthyOpt s1.scroll = true ∧ s1.scroll = s2.scroll) ∨
       (truthyOpt s1.scroll = false ∧ truthyOpt s2.scroll = false)) := by
  constructor
  · intro h
    rw [isEphemeralStatesEquals_eq] at h
    cases h1 : truthyOpt s1.scroll with
    | false =>
      cases h2 : truthyOpt s2.scroll with
      | false => exact Or.inr ⟨rfl, rfl⟩
      | true => rw [h1, h2] at h; simp at h
    | true =>
      cases h2 : truthyOpt s2.scroll with
      | false => rw [h1, h2] at h; simp at h
      | true =>
        rw [h1, h2] at h
        simp only [Bool.true_and, Bool.not_true, Bool.false_and,
          Bool.or_false] at h
        exact Or.inl ⟨rfl, (looseEq_iff_of_truthy _ _ h1 h2).1 h⟩
  · intro h
    rw [isEphemeralStatesEquals_eq]
    rcases h with ⟨ht, heq⟩ | ⟨h1, h2⟩
    · have ht2 : truthyOpt s2.scroll = true := by rw [← heq]; exact ht
      rw [ht, ht2, (looseEq_iff_of_truthy _ _ ht ht2).2 heq]
      rfl
    · rw [h1, h2]
      rfl

/-- Claim C2, counterexample: the claim quantifies over every pair of paths,
but when the rename notification carries the same old and new path and an
entry is present, `db[new] = db[old]; delete db[old]` deletes the entry:
afterwards the new key does not hold the value the old key held before. -/
theorem c2_counterexample :
    jsGet [("a", some ⟨some (JSVal.num 1)⟩)] "a" = some ⟨some (JSVal.num 1)⟩ ∧
    jsGet (renameFile [("a", some ⟨some (JSVal.num 1)⟩)] "a" "a") "a" = none := by
  constructor
  · decide
  · decide

/-- Claim C2, amended: for distinct old and new paths, after `renameFile` the
lookup at the new key yields exactly what the lookup at the old key yielded
before (including `undefined` when the old key was absent, in which case the
new key also reads as absent), and the old key is absent afterwards. -/
theorem c2_amended (db : Db) (newName oldName : String)
    (h : oldName ≠ newName) :
    jsGet (renameFile db newName oldName) newName = jsGet db oldName ∧
    jsGet (renameFile db newName oldName) oldName = none := by
  constructor
  · rw [renameFile, jsGet_jsDelete_ne _ _ _ (fun hc => h hc.symm),
      jsGet_jsSet_self]
  · rw [renameFile, jsGet_jsDelete_self]

/-- Witness for `c2_amended` at a concrete rename. -/
theorem c2_witness :
    jsGet (renameFile [("a", some ⟨some (JSVal.num 7)⟩)] "b" "a") "b"
      = jsGet [("a", some ⟨some (JSVal.num 7)⟩)] "a" ∧
    jsGet (renameFile [("a", some ⟨some (JSVal.num 7)⟩)] "b" "a") "a"
      = none :=
  c2_amended [("a", some ⟨some (JSVal.num 7)⟩)] "b" "a" (by decide)

/-- Claim C9: immediately after a delete notification for a file, the cache
has no entry for it (the key is gone, and a lookup yields `undefined`), and
lookups at every other key are unchanged. -/
theorem c9_delete (db : Db) (f : String) :
    jsGet (deleteFile db f) f = none ∧
    (∀ e ∈ deleteFile db f, e.1 ≠ f) ∧
    (∀ k, k ≠ f → jsGet (deleteFile db f) k = jsGet db k) := by
  refine ⟨jsGet_jsDelete_self db f, jsDelete_no_key db f, ?_⟩
  intro k hk
  exact jsGet_jsDelete_ne db f k hk

/-- Witness for `c9_delete` at a concrete two-entry cache. -/
theorem c9_witness :
    jsGet (deleteFile [("a", some ⟨some (JSVal.num 2)⟩),
                       ("b", some ⟨some (JSVal.num 3)⟩)] "a") "a" = none ∧
    jsGet (deleteFile [("a", some ⟨some (JSVal.num 2)⟩),
                       ("b", some ⟨some (JSVal.num 3)⟩)] "a") "b"
      = jsGet [("a", some ⟨some (JSVal.num 2)⟩),
               ("b", some ⟨some (JSVal.num 3)⟩)] "b" :=
  ⟨(c9_delete _ "a").1, (c9_delete _ "a").2.2 "b" (by decide)⟩

/-- Claim C10: a saved state whose `scroll` is exactly `0` or undefined is
never applied: `setEphemeralState` guards on the truthiness of
`state.scroll`, and both `0` and `undefined` are falsy, so the view is left
untouched and a position of `0` is never restored. -/
theorem c10_zero_never_restored (view : Option String) (st : EphemeralState)
    (h : st.scroll = some (JSVal.num 0) ∨ st.scroll = none) :
    setEphemeralState view st = none := by
  cases view with
  | none => rfl
  | some doc =>
    rcases h with h | h <;>
      simp [setEphemeralState, truthyOpt, JSVal.truthy, h]

/-- Witness for `c10_zero_never_restored` at a concrete view and state. -/
theorem c10_witness :
    setEphemeralState (some "a") ⟨some (JSVal.num 0)⟩ = none :=
  c10_zero_never_restored (some "a") ⟨some (JSVal.num 0)⟩ (Or.inl rfl)

/-- Claim C4, counterexample: `writeDb` issues `adapter.write` without
awaiting it and replaces `lastSavedDb` unconditionally afterwards, so even
when the write fails (`writeOk = false`) the shadow cache does not stay
unchanged: here it moves from `{}` to the copy of the live cache. -/
theorem c4_counterexample :
    serializeDb [("a", some ⟨some (JSVal.num 1)⟩)] ≠ serializeDb ([] : Db) ∧
    (writeDb false [("a", some ⟨some (JSVal.num 1)⟩)] []).lastSavedDb
      ≠ ([] : Db) := by
  constructor
  · decide
  · decide

/-- Claim C4, amended: when the live cache's serialization differs from the
shadow cache's, a flush replaces the shadow cache with the parsed copy of the
serialized live cache regardless of whether the write succeeds or fails, so
the serialized difference does not persist and the next periodic tick issues
no retry of the failed write. -/
theorem c4_amended (ok : Bool) (db lastSaved : Db)
    (h : serializeDb db ≠ serializeDb lastSaved) :
    (writeDb ok db lastSaved).lastSavedDb = parseDb (serializeDb db) ∧
    ∀ ok2, (writeDb ok2 db (writeDb ok db lastSaved).lastSavedDb).wrote
      = false := by
  have h1 : (writeDb ok db lastSaved).lastSavedDb = parseDb (serializeDb db) := by
    rw [writeDb, if_pos h]
  refine ⟨h1, ?_⟩
  intro ok2
  rw [h1, writeDb]
  rw [if_neg]
  intro hne
  exact hne (serializeDb_parseDb_serializeDb db).symm

/-- Witness for `c4_amended`: a failed write at a concrete dirty cache. -/
theorem c4_witness :
    (writeDb false [("a", some ⟨some (JSVal.num 1)⟩)] []).lastSavedDb
      = parseDb (serializeDb [("a", some ⟨some (JSVal.num 1)⟩)]) ∧
    ∀ ok2, (writeDb ok2 [("a", some ⟨some (JSVal.num 1)⟩)]
      (writeDb false [("a", some ⟨some (JSVal.num 1)⟩)] []).lastSavedDb).wrote
      = false :=
  c4_amended false [("a", some ⟨some (JSVal.num 1)⟩)] [] (by decide)

/-- Claim C6: two consecutive flushes with no intervening cache change issue
exactly one write: the first one writes precisely when the live cache's
serialization differs from the shadow cache's, in which case it replaces the
shadow cache with the parsed copy of what it wrote, and the second flush
never writes because the serialized forms then match. -/
theorem c6_flush_idempotent (ok1 ok2 : Bool) (db lastSaved : Db) :
    ((writeDb ok1 db lastSaved).wrote = true ↔
      serializeDb db ≠ serializeDb lastSaved) ∧
    (serializeDb db ≠ serializeDb lastSaved →
      (writeDb ok1 db lastSaved).lastSavedDb = parseDb (serializeDb db)) ∧
    (writeDb ok2 db (writeDb ok1 db lastSaved).lastSavedDb).wrote = false := by
  by_cases h : serializeDb db = serializeDb lastSaved
  · have hwr : writeDb ok1 db lastSaved =
        { wrote := false, lastSavedDb := lastSaved } := by
      rw [writeDb, if_neg (by simpa using h)]
    refine ⟨?_, ?_, ?_⟩
    · rw [hwr]
      simp [h]
    · intro hne
      exact absurd h hne
    · rw [hwr, writeDb, if_neg (by simpa using h)]
  · have hwr : writeDb ok1 db lastSaved =
        { wrote := true, lastSavedDb := parseDb (serializeDb db) } := by
      rw [writeDb, if_pos h]
    refine ⟨?_, ?_, ?_⟩
    · rw [hwr]
      simp [h]
    · intro _
      rw [hwr]
    · rw [hwr, writeDb, if_neg]
      intro hne
      exact hne (serializeDb_parseDb_serializeDb db).symm

/-- Witness for `c6_flush_idempotent` at a concrete dirty cache: the inner
implication is discharged at a pair of caches with differing serializations. -/
theorem c6_witness :
    (writeDb true [("a", some ⟨some (JSVal.num 4)⟩)] []).lastSavedDb
      = parseDb (serializeDb [("a", some ⟨some (JSVal.num 4)⟩)]) ∧
    (writeDb true [("a", some ⟨some (JSVal.num 4)⟩)]
      (writeDb true [("a", some ⟨some (JSVal.num 4)⟩)] []).lastSavedDb).wrote
      = false :=
  ⟨(c6_flush_idempotent true true [("a", some ⟨some (JSVal.num 4)⟩)] []).2.1
      (by decide),
   (c6_flush_idempotent true true [("a", some ⟨some (JSVal.num 4)⟩)] []).2.2⟩

/-- Claim C7, counterexample: the cache state `{b: undefined}` is reachable
(rename an absent key `a` to `b` starting from the empty cache), but
`JSON.stringify` omits the `undefined`-valued key, so parsing the serialized
form back does not restore the same key set. -/
theorem c7_counterexample :
    ReachableDb [("b", (none : Option EphemeralState))] ∧
    parseDb (serializeDb [("b", (none : Option EphemeralState))])
      ≠ [("b", (none : Option EphemeralState))] := by
  constructor
  · have h : renameFile [] "b" "a" = [("b", none)] := by decide
    exact h ▸ ReachableDb.rename [] "b" "a" ReachableDb.init
  · decide

/-- Claim C7, amended: serializing and parsing back is the identity on every
cache whose bindings are all defined states with non-`NaN` scroll values —
which covers every binding the program writes except the `undefined` one
`renameFile` creates for an absent old key, a binding serialization drops. -/
theorem c7_amended (db : Db) (h : wellFormedDb db = true) :
    parseDb (serializeDb db) = db :=
  parseDb_serializeDb_of_wellFormed db h

/-- Witness for `c7_amended` at a concrete two-entry cache (one entry with a
fractional position, one with no recorded position). -/
theorem c7_witness :
    parseDb (serializeDb [("a", some ⟨some (JSVal.num (25 / 2))⟩),
                          ("b", some ⟨none⟩)])
      = [("a", some ⟨some (JSVal.num (25 / 2))⟩), ("b", some ⟨none⟩)] :=
  c7_amended [("a", some ⟨some (JSVal.num (25 / 2))⟩), ("b", some ⟨none⟩)]
    (by decide)

/-- Claim C8: whatever the outcome of reading the durable file at startup,
initialisation completes with a defined pair of caches; a failed read (error
or malformed JSON) and an absent file both leave the live cache and the
shadow cache empty. -/
theorem c8_onload :
    (∀ r : ReadOutcome, readDb r = Except.error () →
      onloadInitDb r = ([], [])) ∧
    onloadInitDb ReadOutcome.absent = ([], []) ∧
    (∀ content : SerDb, onloadInitDb (ReadOutcome.ok content)
      = (parseDb content, parseDb content)) := by
  refine ⟨?_, rfl, ?_⟩
  · intro r hr
    cases r with
    | absent => exact absurd hr (by simp [readDb])
    | ok content => exact absurd hr (by simp [readDb])
    | readError => rfl
    | malformed => rfl
  · intro content
    rfl

/-- Witness for `c8_onload`: the read-error outcome yields the empty pair. -/
theorem c8_witness : onloadInitDb ReadOutcome.readError = ([], []) :=
  c8_onload.1 ReadOutcome.readError rfl

/-- Claim C5, counterexample: an evaluation fires with `"a"` active,
`lastLoadedFileName = "a"`, no restore in progress, and the numeric sample
`5` — yet the cache entry for `"a"` stays absent, because no baseline
`lastEphemeralState` existed and the code only adopts the sample as baseline
without saving. -/
theorem c5_counterexample :
    jsGet (checkEphemeralStateChanged
      { db := [], lastSavedDb := [], lastEphemeralState := none,
        lastLoadedFileName := some "a", loadedLeafIdList := [],
        loadingFile := false }
      (some "a") ⟨some (JSVal.num 5)⟩).db "a" = none := by
  decide

/-- Claim C5, amended: if additionally a baseline `lastEphemeralState`
already exists and the sampled state differs from it under the code's
equality check, then after the evaluation the cache entry for the active
document is exactly the sampled state. -/
theorem c5_amended (s : PluginState) (fpath : String) (q : ℚ)
    (hfile : fpath ≠ "")
    (hlast : s.lastLoadedFileName = some fpath)
    (hload : s.loadingFile = false)
    (base : EphemeralState)
    (hbase : s.lastEphemeralState = some base)
    (hdiff : isEphemeralStatesEquals ⟨some (JSVal.num q)⟩ base = false) :
    jsGet (checkEphemeralStateChanged s (some fpath)
        ⟨some (JSVal.num q)⟩).db fpath
      = some ⟨some (JSVal.num q)⟩ := by
  obtain ⟨db, lsdb, les, llf, llist, lf⟩ := s
  simp only at hlast hload hbase
  subst hlast hload hbase
  simp [checkEphemeralStateChanged, strTruthy, hfile, jsIsNaN, hdiff,
    saveEphemeralState, jsGet_jsSet_self]

/-- Witness for `c5_amended`: concrete evaluation from baseline `3` to
sample `5` stores `5` for the active document. -/
theorem c5_witness :
    jsGet (checkEphemeralStateChanged
      { db := [], lastSavedDb := [],
        lastEphemeralState := some ⟨some (JSVal.num 3)⟩,
        lastLoadedFileName := some "a", loadedLeafIdList := [],
        loadingFile := false }
      (some "a") ⟨some (JSVal.num 5)⟩).db "a"
      = some ⟨some (JSVal.num 5)⟩ :=
  c5_amended _ "a" 5 (by decide) rfl rfl ⟨some (JSVal.num 3)⟩ rfl (by decide)

/-- Claim C3, counterexample: the restore sequence re-checks only the
flashing marker after the settle delay, never the document identity, so the
state saved for `notes/a` is applied to a view whose active document is
`notes/b` at the moment of application. -/
theorem c3_counterexample :
    (restoreEphemeralState sampleRestoreState sampleRestoreEnv).applied
      = some ("notes/b", ⟨some (JSVal.num 5)⟩) ∧
    sampleRestoreEnv.activeFile ≠ some "notes/b" := by
  constructor
  · decide
  · decide

/-- Claim C3, amended: when a restore run applies a state, it applies it to
whatever markdown view is active at application time (`env.viewAtApply`) —
which may show a different document than the one the state was looked up
for — and the only conditions guaranteed at that point are that no flashing
marker was present after the settle delay and that the applied state is the
truthy-scroll state that was saved for the file that was active at entry. -/
theorem c3_amended (s : PluginState) (env : RestoreEnv) (d : String)
    (st : EphemeralState)
    (h : (restoreEphemeralState s env).applied = some (d, st)) :
    env.viewAtApply = some d ∧ env.flashing = false ∧
    truthyOpt st.scroll = true ∧
    ∃ f, env.activeFile = some f ∧ jsGet s.db f = some st := by
  unfold restoreEphemeralState at h
  by_cases g1 : (strTruthy env.activeFile && s.loadingFile
      && decide (s.lastLoadedFileName = env.activeFile)) = true
  · rw [if_pos g1] at h
    exact absurd h (by simp)
  · rw [if_neg g1] at h
    by_cases g2 : (match env.recentLeafId with
        | some lid => s.loadedLeafIdList.contains lid
        | none => false) = true
    · rw [if_pos g2] at h
      exact absurd h (by simp)
    · rw [if_neg g2] at h
      simp only at h
      by_cases g3 : s.lastLoadedFileName ≠ env.activeFile
      · rw [if_pos g3] at h
        cases hf : env.activeFile with
        | none =>
          rw [hf] at h
          simp only at h
          exact absurd h (by simp)
        | some f =>
          rw [hf] at h
          simp only at h
          cases hst : jsGet s.db f with
          | none =>
            rw [hst] at h
            simp only at h
            exact absurd h (by simp)
          | some stv =>
            rw [hst] at h
            simp only at h
            cases hfl : env.flashing with
            | true =>
              rw [hfl] at h
              simp only [Bool.not_true, Bool.false_eq_true, if_false] at h
              exact absurd h (by simp)
            | false =>
              rw [hfl] at h
              simp only [Bool.not_false, if_true] at h
              cases hv : env.viewAtApply with
              | none =>
                rw [hv] at h
                simp [setEphemeralState] at h
              | some doc =>
                rw [hv] at h
                by_cases ht : truthyOpt stv.scroll = true
                · simp only [setEphemeralState, ht, if_true,
                    Option.some.injEq, Prod.mk.injEq] at h
                  obtain ⟨hd, hs⟩ := h
                  subst hd
                  subst hs
                  exact ⟨rfl, rfl, ht, f, rfl, hst⟩
                · simp [setEphemeralState, ht] at h
      · rw [if_neg g3] at h
        exact absurd h (by simp)

/-- Witness for `c3_amended` at the concrete misdirected-restore run. -/
theorem c3_witness :
    sampleRestoreEnv.viewAtApply = some "notes/b" ∧
    sampleRestoreEnv.flashing = false ∧
    truthyOpt (⟨some (JSVal.num 5)⟩ : EphemeralState).scroll = true ∧
    ∃ f, sampleRestoreEnv.activeFile = some f ∧
      jsGet sampleRestoreState.db f = some ⟨some (JSVal.num 5)⟩ :=
  c3_amended sampleRestoreState sampleRestoreEnv "notes/b"
    ⟨some (JSVal.num 5)⟩ (by decide)

end RememberScroll
